import Mathlib

/-!
Shallow embedding of the task-store core of `Tasky.py` (a terminal task
manager): the `Task` record, persistence (`load_tasks` / `save_tasks`),
the filter engine (`get_filtered_tasks`), the mutations
(`action_add_task`, `action_complete_task`, `action_delete_task`), the
add-modal input sanitization (`AddTaskModal.on_button_pressed`), and the
positional selection resolution (`update_current_task`).

Machine-level conventions: Python strings are Lean `String`s; Python
`int` is Lean `Int` (unbounded in both); Python exceptions are modelled
explicitly (`PyError`, `Except`, `LoadResult.raised`); the JSON file is
modelled post-parse as a `FileState` (missing file / unparseable text /
a parsed list of records whose fields may individually be absent).
-/

namespace Tasky

/-- The `Task` dataclass of `Tasky.py` (lines 20-33): fields `id`,
`title`, `completed`, `priority`, `tags`, `created_at`. -/
structure Task where
  id : String
  title : String
  completed : Bool
  priority : String
  tags : List String
  created_at : String
deriving Repr, DecidableEq

/-- One JSON object of the storage file, post-parse: each field of the
`Task` dataclass may be present or absent.  (`tags`/`created_at` being
JSON `null` behaves like absence: `__post_init__` replaces `None`.) -/
structure RawRecord where
  id : Option String
  title : Option String
  completed : Option Bool
  priority : Option String
  tags : Option (List String)
  created_at : Option String
deriving Repr, DecidableEq

/-- Python exception kinds relevant to `load_tasks` (line 273 catches
`json.JSONDecodeError`, `KeyError`, `ValueError`; `TypeError` is NOT in
that tuple). -/
inductive PyError where
  | typeError
  | valueError
  | keyError
  | jsonDecodeError
deriving Repr, DecidableEq

/-- The on-disk state of `tasks.json`, as `load_tasks` distinguishes it:
no file (line 266), a file whose text `json.load` rejects (caught at
line 273), or a successfully parsed list of records. -/
inductive FileState where
  | missing
  | invalidJson
  | records (rs : List RawRecord)
deriving Repr, DecidableEq

/-- `Task(**record)` (line 270) with `__post_init__` (lines 29-33):
raises `TypeError` when a required field (`id` or `title`) is absent;
otherwise fills dataclass defaults (`completed=False`,
`priority="normal"`, `tags=[]`, `created_at=now`). -/
def mkTask (now : String) (r : RawRecord) : Except PyError Task :=
  match r.id, r.title with
  | some i, some t =>
      .ok ⟨i, t, r.completed.getD false, r.priority.getD "normal",
           r.tags.getD [], r.created_at.getD now⟩
  | _, _ => .error .typeError

/-- The list comprehension `[Task(**task) for task in data]` (line 270):
builds tasks in order, propagating the first raised exception. -/
def buildAll (now : String) : List RawRecord → Except PyError (List Task)
  | [] => .ok []
  | r :: rs =>
    match mkTask now r, buildAll now rs with
    | .error e, _ => .error e
    | .ok _, .error e => .error e
    | .ok t, .ok ts => .ok (t :: ts)

/-- Numeric value of a decimal digit character (`'0'` ↦ 0, …). -/
def charVal (c : Char) : Nat := c.toNat - 48

/-- Decimal value of a digit string, most significant first. -/
def listVal (cs : List Char) : Nat :=
  cs.foldl (fun a c => 10 * a + charVal c) 0

/-- Digit-run parser underlying the model of Python `int(str)`: a
non-empty all-digit run parses to its decimal value. -/
def parseDigits (cs : List Char) : Option Nat :=
  if cs = [] then none
  else if cs.all (fun c => c.isDigit) then some (listVal cs) else none

/-- Python whitespace for `str.strip()`: space, tab, newline, carriage
return, vertical tab, form feed. -/
def pyWhitespace (c : Char) : Bool :=
  c ∈ ([' ', '\t', '\n', '\r', '\x0b', '\x0c'] : List Char)

/-- Python `s.strip()` with no argument: drop whitespace from both
ends. -/
def pyStrip (s : String) : String :=
  ⟨(((s.data.dropWhile pyWhitespace).reverse.dropWhile
      pyWhitespace).reverse)⟩

/-- Splitting a character list on `','`, keeping empty pieces — the
character-level behavior of Python `s.split(",")`. -/
def splitCommaChars : List Char → List (List Char)
  | [] => [[]]
  | c :: rest =>
    match splitCommaChars rest with
    | [] => [[]]
    | piece :: pieces =>
      if c = ',' then [] :: piece :: pieces
      else (c :: piece) :: pieces

/-- Python `s.split(",")`. -/
def pySplitComma (s : String) : List String :=
  (splitCommaChars s.data).map (fun cs => ⟨cs⟩)

/-- Model of Python `int(s)` on strings (line 272 `int(task.id)`):
surrounding whitespace stripped, optional sign, then decimal digits;
anything else raises `ValueError` (here: `none`).  Digit-group
underscores, non-ASCII digits and base prefixes are not modelled; the
ids the program itself writes are plain decimals. -/
def pyInt (s : String) : Option Int :=
  match (pyStrip s).data with
  | '-' :: rest => (parseDigits rest).map (fun n => -(n : Int))
  | '+' :: rest => (parseDigits rest).map (fun n => (n : Int))
  | cs => (parseDigits cs).map (fun n => (n : Int))

/-- `max(int(task.id) for task in self.tasks)` (line 272) on a list of
tasks: `none` when some id fails to parse (Python: `ValueError` from
`int`); the Python `max` of the generator otherwise.  `load_tasks` only
evaluates it on a non-empty list (`if self.tasks:`). -/
def maxIds : List Task → Option Int
  | [] => none
  | [t] => pyInt t.id
  | t :: ts =>
    match pyInt t.id, maxIds ts with
    | some a, some b => some (max a b)
    | _, _ => none

/-- Outcome of `load_tasks`: the new `(self.tasks, self.task_counter)`
pair, or an uncaught exception propagating out of the method. -/
inductive LoadResult where
  | ok (tasks : List Task) (counter : Int)
  | raised (e : PyError)
deriving Repr, DecidableEq

/-- The task list of a `LoadResult` that did not raise. -/
def LoadResult.tasksOf : LoadResult → Option (List Task)
  | .ok ts _ => some ts
  | .raised _ => none

/-- `TaskManagerApp.load_tasks` (lines 265-274), from in-memory state
`(tasks0, counter0)` (at startup: `([], 0)` from lines 227/235).
Missing file: no change.  `json.JSONDecodeError`: caught, `tasks := []`.
Parsed records: `Task(**record)` may raise `TypeError` — NOT in the
caught tuple, so it propagates.  With all tasks built and the list
non-empty, `max(int(task.id) ...) + 1` becomes the counter; a
non-integer id raises `ValueError`, which IS caught and resets
`self.tasks` to `[]` (the counter keeps its prior value). -/
def loadTasks (file : FileState) (now : String) (tasks0 : List Task)
    (counter0 : Int) : LoadResult :=
  match file with
  | .missing => .ok tasks0 counter0
  | .invalidJson => .ok [] counter0
  | .records rs =>
    match buildAll now rs with
    | .error e => .raised e
    | .ok [] => .ok [] counter0
    | .ok (t :: ts) =>
      match maxIds (t :: ts) with
      | none => .ok [] counter0
      | some m => .ok (t :: ts) (m + 1)

/-- `asdict(task)` as serialized by `json.dump` (line 279): every field
of the record is present. -/
def taskToRecord (t : Task) : RawRecord :=
  ⟨some t.id, some t.title, some t.completed, some t.priority,
   some t.tags, some t.created_at⟩

/-- The file contents produced by a successful `save_tasks`
(lines 276-281): the parsed shape of
`json.dump([asdict(task) for task in self.tasks], f)`. -/
def saveTasksFile (tasks : List Task) : FileState :=
  .records (tasks.map taskToRecord)

/-- `save_tasks` (lines 276-281) as seen by the disk: on a successful
write the file is replaced; on any write failure the `except Exception:
pass` swallows the error and the file keeps its previous contents.
Either way nothing is returned and nothing propagates. -/
def saveTasksDisk (tasks : List Task) (disk : FileState)
    (writeOk : Bool) : FileState :=
  if writeOk then saveTasksFile tasks else disk

/-- Python `needle in hay` on strings (lines 290-291): substring test. -/
def pyIn (needle hay : String) : Bool :=
  decide (needle.data <:+: hay.data)

/-- `TaskManagerApp.get_filtered_tasks` (lines 283-292): empty filter
returns the list unchanged; otherwise keep, in order, the tasks whose
lowercased title contains the lowercased filter, or one of whose
lowercased tags does.  (`str.lower` is modelled by `String.toLower`;
both lowercase ASCII letters, which is the relevant case.) -/
def getFilteredTasks (tasks : List Task) (searchFilter : String) :
    List Task :=
  if searchFilter = "" then tasks
  else
    let searchLower := searchFilter.toLower
    tasks.filter (fun task =>
      pyIn searchLower task.title.toLower ||
      task.tags.any (fun tag => pyIn searchLower tag.toLower))

/-- `update_current_task` (lines 314-326): the current task is resolved
purely positionally, as `filtered_tasks[cursor_row]` when the cursor row
is in range and `None` otherwise.  No identity lookup occurs.  Nothing
in the application ever re-points the cursor at a previously selected
id: the only `move_cursor` call (line 311) is guarded by
`not table.cursor_coordinate`, and a coordinate — a two-element tuple —
is always truthy in Python, so that guard is never taken. -/
def currentTaskAt (tasks : List Task) (searchFilter : String)
    (cursorRow : Nat) : Option Task :=
  (getFilteredTasks tasks searchFilter)[cursorRow]?

/-- The `task_data` dictionary produced by
`AddTaskModal.on_button_pressed` (lines 82-99). -/
structure TaskData where
  title : String
  priority : String
  tags : List String
deriving Repr, DecidableEq

/-- `AddTaskModal.on_button_pressed` for the Add button (lines 82-97):
strips the inputs, defaults a blank priority to `"normal"`
(`... or "normal"`), refuses a blank title (no dismissal value), coerces
a priority outside `["low", "normal", "high"]` to `"normal"`, and splits
the tag input on commas, trimming each piece and dropping blanks. -/
def modalResult (titleRaw priorityRaw tagsRaw : String) :
    Option TaskData :=
  let title := pyStrip titleRaw
  let priority := if pyStrip priorityRaw = "" then "normal"
                  else pyStrip priorityRaw
  let tagsInput := pyStrip tagsRaw
  if title = "" then none
  else some ⟨title,
             if priority ∈ (["low", "normal", "high"] : List String)
             then priority else "normal",
             ((pySplitComma tagsInput).map
               pyStrip).filter (fun s => s ≠ "")⟩

/-- Decimal digit character: `digitChar 3 = '3'`. -/
def digitChar (n : Nat) : Char := Char.ofNat (48 + n)

/-- Decimal rendering of a natural number, modelling Python `str` on a
non-negative `int`: most significant digit first, no leading zeros
(except `"0"` itself). -/
def pyStrNatChars (n : Nat) : List Char :=
  if _h : n < 10 then [digitChar n]
  else pyStrNatChars (n / 10) ++ [digitChar (n % 10)]
decreasing_by exact Nat.div_lt_self (by omega) (by omega)

/-- Python `str(i)` for an `int` (line 361 `str(self.task_counter)`):
decimal digits, `'-'`-prefixed when negative. -/
def pyStrInt (i : Int) : String :=
  if i < 0 then ⟨'-' :: pyStrNatChars i.natAbs⟩
  else ⟨pyStrNatChars i.natAbs⟩

/-- The `Task(...)` constructed by `action_add_task` (lines 360-365):
id is the stringified counter, `completed` defaults to `False`,
`created_at` to the construction time. -/
def newTaskOf (counter : Int) (d : TaskData) (now : String) : Task :=
  ⟨pyStrInt counter, d.title, false, d.priority, d.tags, now⟩

/-- `action_delete_task`'s list comprehension (line 380):
`[task for task in self.tasks if task.id != current.id]`. -/
def deleteTaskList (tasks : List Task) (i : String) : List Task :=
  tasks.filter (fun t => t.id ≠ i)

/-- `action_complete_task` (lines 371-376) flips `completed` on the
selected task object in place; since the selected task is an element of
`self.tasks` (it came out of `get_filtered_tasks`), the effect on the
list is that the task with the selected id has its flag negated.
Expressed by id on the list. -/
def toggleCompleteList (tasks : List Task) (i : String) : List Task :=
  tasks.map (fun t =>
    if t.id = i then { t with completed := !t.completed } else t)

/-- In-memory-plus-disk state of the running `TaskManagerApp`:
`self.tasks`, `self.task_counter`, and the contents of `tasks.json`. -/
structure AppState where
  tasks : List Task
  counter : Int
  disk : FileState
deriving Repr, DecidableEq

/-- The mutating UI events of the app.  `create` carries the raw modal
inputs (title / priority / tags text) plus the construction timestamp;
`deleteTask i` / `toggleTask i` model `action_delete_task` /
`action_complete_task` fired while the selected task has id `i` (with no
selection both actions are guarded no-ops). -/
inductive Event where
  | create (titleRaw priorityRaw tagsRaw now : String)
  | deleteTask (i : String)
  | toggleTask (i : String)
deriving Repr, DecidableEq

/-- One mutating event, with `writeOk` telling whether the
`save_tasks` call that follows the mutation succeeds on disk.  A failed
write never touches the in-memory fields (lines 280-281: the exception
is swallowed), and a cancelled/blank-title modal creates nothing and
saves nothing (`if result:` at line 359). -/
def stepEvent (s : AppState) (e : Event) (writeOk : Bool) : AppState :=
  match e with
  | .create t p g now =>
    match modalResult t p g with
    | none => s
    | some d =>
      let tasks' := s.tasks ++ [newTaskOf s.counter d now]
      { tasks := tasks', counter := s.counter + 1,
        disk := saveTasksDisk tasks' s.disk writeOk }
  | .deleteTask i =>
    let tasks' := deleteTaskList s.tasks i
    { s with tasks := tasks', disk := saveTasksDisk tasks' s.disk writeOk }
  | .toggleTask i =>
    let tasks' := toggleCompleteList s.tasks i
    { s with tasks := tasks', disk := saveTasksDisk tasks' s.disk writeOk }

/-- The counter values consumed by the `create` events of a trace, in
order (line 361 reads the counter, line 366 increments it). -/
def createdCounters (s : AppState) : List (Event × Bool) → List Int
  | [] => []
  | (e, w) :: tr =>
    (match e with
     | .create t p g _ =>
       if (modalResult t p g).isSome then [s.counter] else []
     | _ => []) ++ createdCounters (stepEvent s e w) tr

/-- The id strings assigned by the `create` events of a trace, in
order. -/
def createdIds (s : AppState) : List (Event × Bool) → List String
  | [] => []
  | (e, w) :: tr =>
    (match e with
     | .create t p g _ =>
       if (modalResult t p g).isSome then [pyStrInt s.counter] else []
     | _ => []) ++ createdIds (stepEvent s e w) tr

/-- Spec-side predicate, worded from the claim: the filter text occurs
in the title as a case-insensitive substring, or in at least one tag. -/
def SpecMatches (s : String) (t : Task) : Prop :=
  s.toLower.data <:+: t.title.toLower.data ∨
  ∃ g ∈ t.tags, s.toLower.data <:+: g.toLower.data

instance (s : String) (t : Task) : Decidable (SpecMatches s t) := by
  unfold SpecMatches
  infer_instance

/-! ## Helper lemmas -/

theorem charVal_digitChar {d : Nat} (h : d < 10) :
    charVal (digitChar d) = d := by
  interval_cases d <;> decide

theorem le_toNat_digitChar {d : Nat} (h : d < 10) :
    48 ≤ (digitChar d).toNat := by
  interval_cases d <;> decide

theorem listVal_append_single (cs : List Char) (c : Char) :
    listVal (cs ++ [c]) = 10 * listVal cs + charVal c := by
  simp [listVal, List.foldl_append]

theorem listVal_pyStrNatChars (n : Nat) :
    listVal (pyStrNatChars n) = n := by
  induction n using Nat.strong_induction_on with
  | _ n ih =>
    rw [pyStrNatChars]
    split
    · next h =>
      simp [listVal, List.foldl, charVal_digitChar h]
    · next h =>
      rw [listVal_append_single, ih (n / 10) (Nat.div_lt_self (by omega) (by omega)),
        charVal_digitChar (Nat.mod_lt n (by omega))]
      omega

theorem le_toNat_of_mem_pyStrNatChars {n : Nat} {c : Char}
    (hm : c ∈ pyStrNatChars n) : 48 ≤ c.toNat := by
  induction n using Nat.strong_induction_on with
  | _ n ih =>
    rw [pyStrNatChars] at hm
    split at hm
    · next h =>
      rw [List.mem_singleton] at hm
      exact hm ▸ le_toNat_digitChar h
    · next h =>
      rcases List.mem_append.1 hm with hl | hr
      · exact ih (n / 10) (Nat.div_lt_self (by omega) (by omega)) hl
      · rw [List.mem_singleton] at hr
        exact hr ▸ le_toNat_digitChar (Nat.mod_lt n (by omega))

theorem pyStrNatChars_inj {a b : Nat}
    (h : pyStrNatChars a = pyStrNatChars b) : a = b := by
  have ha := listVal_pyStrNatChars a
  rw [h, listVal_pyStrNatChars] at ha
  omega

theorem pyStrInt_inj {a b : Int} (h : pyStrInt a = pyStrInt b) :
    a = b := by
  unfold pyStrInt at h
  split at h <;> split at h
  · next ha hb =>
    have hl : '-' :: pyStrNatChars a.natAbs = '-' :: pyStrNatChars b.natAbs :=
      congrArg String.data h
    have := pyStrNatChars_inj (List.cons.injEq .. ▸ hl).2
    omega
  · next ha hb =>
    have hl : '-' :: pyStrNatChars a.natAbs = pyStrNatChars b.natAbs :=
      congrArg String.data h
    have hm : ('-' : Char) ∈ pyStrNatChars b.natAbs := hl ▸ List.mem_cons_self ..
    have := le_toNat_of_mem_pyStrNatChars hm
    have h45 : ('-' : Char).toNat = 45 := rfl
    omega
  · next ha hb =>
    have hl : pyStrNatChars a.natAbs = '-' :: pyStrNatChars b.natAbs :=
      congrArg String.data h
    have hm : ('-' : Char) ∈ pyStrNatChars a.natAbs := hl ▸ List.mem_cons_self ..
    have := le_toNat_of_mem_pyStrNatChars hm
    have h45 : ('-' : Char).toNat = 45 := rfl
    omega
  · next ha hb =>
    have hl : pyStrNatChars a.natAbs = pyStrNatChars b.natAbs :=
      congrArg String.data h
    have := pyStrNatChars_inj hl
    omega

theorem counter_le_stepEvent (s : AppState) (e : Event) (w : Bool) :
    s.counter ≤ (stepEvent s e w).counter := by
  cases e with
  | create t p g now =>
    rcases hm : modalResult t p g with _ | d <;> simp [stepEvent, hm]
  | deleteTask i => simp [stepEvent]
  | toggleTask i => simp [stepEvent]

theorem le_of_mem_createdCounters :
    ∀ (tr : List (Event × Bool)) (s : AppState) (x : Int),
      x ∈ createdCounters s tr → s.counter ≤ x
  | [], s, x, hx => by simp [createdCounters] at hx
  | (e, w) :: tr, s, x, hx => by
    have hrec : x ∈ createdCounters (stepEvent s e w) tr → s.counter ≤ x :=
      fun hx2 => le_trans (counter_le_stepEvent s e w)
        (le_of_mem_createdCounters tr (stepEvent s e w) x hx2)
    cases e with
    | create t p g now =>
      simp only [createdCounters] at hx
      rcases List.mem_append.1 hx with h1 | h2
      · split at h1
        · rw [List.mem_singleton] at h1
          exact le_of_eq h1.symm
        · simp at h1
      · exact hrec h2
    | deleteTask i =>
      simp only [createdCounters, List.nil_append] at hx
      exact hrec hx
    | toggleTask i =>
      simp only [createdCounters, List.nil_append] at hx
      exact hrec hx

theorem createdCounters_pairwise :
    ∀ (tr : List (Event × Bool)) (s : AppState),
      (createdCounters s tr).Pairwise (· < ·)
  | [], s => by simp [createdCounters]
  | (e, w) :: tr, s => by
    have ih := createdCounters_pairwise tr (stepEvent s e w)
    cases e with
    | create t p g now =>
      simp only [createdCounters]
      by_cases hm : (modalResult t p g).isSome
      · rw [if_pos hm, List.singleton_append]
        refine List.Pairwise.cons (fun b hb => ?_) ih
        have hle := le_of_mem_createdCounters tr
          (stepEvent s (.create t p g now) w) b hb
        obtain ⟨d, hd⟩ := Option.isSome_iff_exists.1 hm
        have hc : (stepEvent s (.create t p g now) w).counter
            = s.counter + 1 := by simp [stepEvent, hd]
        omega
      · rw [if_neg hm, List.nil_append]
        exact ih
    | deleteTask i =>
      simp only [createdCounters, List.nil_append]
      exact ih
    | toggleTask i =>
      simp only [createdCounters, List.nil_append]
      exact ih

theorem createdIds_eq_map :
    ∀ (tr : List (Event × Bool)) (s : AppState),
      createdIds s tr = (createdCounters s tr).map pyStrInt
  | [], s => by simp [createdIds, createdCounters]
  | (e, w) :: tr, s => by
    have ih := createdIds_eq_map tr (stepEvent s e w)
    cases e with
    | create t p g now =>
      simp only [createdIds, createdCounters, List.map_append, ih]
      split <;> simp
    | deleteTask i =>
      simpa only [createdIds, createdCounters, List.nil_append] using ih
    | toggleTask i =>
      simpa only [createdIds, createdCounters, List.nil_append] using ih

theorem maxIds_none_of_mem :
    ∀ (ts : List Task) (t : Task), t ∈ ts → pyInt t.id = none →
      maxIds ts = none
  | [], t, ht, _ => absurd ht (List.not_mem_nil t)
  | [u], t, ht, hn => by
    rw [List.mem_singleton] at ht
    subst ht
    simp [maxIds, hn]
  | u :: v :: ts, t, ht, hn => by
    rcases List.mem_cons.1 ht with h1 | h2
    · subst h1
      simp [maxIds, hn]
    · have hr := maxIds_none_of_mem (v :: ts) t h2 hn
      simp only [maxIds, hr]
      cases pyInt u.id <;> rfl

theorem maxIds_some :
    ∀ (ts : List Task) (m : Int), maxIds ts = some m →
      (∃ t ∈ ts, pyInt t.id = some m) ∧
      ∀ t ∈ ts, ∀ x, pyInt t.id = some x → x ≤ m
  | [], m, h => by simp [maxIds] at h
  | [u], m, h => by
    simp only [maxIds] at h
    refine ⟨⟨u, List.mem_singleton_self u, h⟩, ?_⟩
    intro t ht x hx
    rw [List.mem_singleton] at ht
    subst ht
    rw [h] at hx
    exact le_of_eq (Option.some.inj hx).symm
  | u :: v :: ts, m, h => by
    simp only [maxIds] at h
    cases hu : pyInt u.id with
    | none => rw [hu] at h; simp at h
    | some a =>
      cases hv : maxIds (v :: ts) with
      | none => rw [hu, hv] at h; simp at h
      | some b =>
        rw [hu, hv] at h
        simp only [Option.some.injEq] at h
        obtain ⟨⟨t0, ht0, hpt0⟩, hub⟩ := maxIds_some (v :: ts) b hv
        constructor
        · rcases le_total a b with hab | hba
          · exact ⟨t0, List.mem_cons_of_mem _ ht0, by
              rw [hpt0]
              congr 1
              omega⟩
          · exact ⟨u, List.mem_cons_self .., by
              rw [hu]
              congr 1
              omega⟩
        · intro t ht x hx
          rcases List.mem_cons.1 ht with h1 | h2
          · subst h1
            rw [hu] at hx
            have := Option.some.inj hx
            omega
          · have := hub t h2 x hx
            omega

theorem maxIds_isSome :
    ∀ (ts : List Task), ts ≠ [] →
      (∀ t ∈ ts, (pyInt t.id).isSome = true) → ∃ m, maxIds ts = some m
  | [], h, _ => absurd rfl h
  | [u], _, hall => by
    obtain ⟨a, ha⟩ :=
      Option.isSome_iff_exists.1 (hall u (List.mem_singleton_self u))
    exact ⟨a, by simp [maxIds, ha]⟩
  | u :: v :: ts, _, hall => by
    obtain ⟨a, ha⟩ :=
      Option.isSome_iff_exists.1 (hall u (List.mem_cons_self ..))
    obtain ⟨b, hb⟩ := maxIds_isSome (v :: ts) (by simp)
      (fun t ht => hall t (List.mem_cons_of_mem _ ht))
    exact ⟨max a b, by simp [maxIds, ha, hb]⟩

theorem mkTask_taskToRecord (now : String) (t : Task) :
    mkTask now (taskToRecord t) = .ok t := rfl

theorem buildAll_saveRecords (now : String) :
    ∀ c : List Task, buildAll now (c.map taskToRecord) = .ok c
  | [] => rfl
  | t :: c => by
    simp [buildAll, mkTask_taskToRecord, buildAll_saveRecords now c]

theorem toggleFlip_involutive (i : String) (t : Task) :
    (fun u : Task =>
        if u.id = i then { u with completed := !u.completed } else u)
      ((fun u : Task =>
        if u.id = i then { u with completed := !u.completed } else u) t)
      = t := by
  by_cases h : t.id = i
  · obtain ⟨tid, ttitle, tc, tp, tg, tca⟩ := t
    simp only at h
    subst h
    simp
  · simp [h]

/-! ## Claim theorems -/

/-- Claim C1, code evaluated at the failing input: selection is resolved
positionally (`update_current_task` indexes the filtered list by the
table cursor row), never by identity.  With tasks `[A, B, C]`, no
filter, and the cursor on row 1 (selection `B`), deleting `A` leaves the
cursor row untouched by any code of the repository (the lone
`move_cursor` call sits under `not table.cursor_coordinate`, which is
never true of a coordinate pair), so the selection re-resolves to the
task now occupying row 1 of the filtered view `[B, C]`: task `C`, not
`B`. -/
theorem selection_repoints_positionally_after_delete_above :
    currentTaskAt
      [⟨"0", "alpha", false, "normal", [], "T0"⟩,
       ⟨"1", "beta", false, "normal", [], "T1"⟩,
       ⟨"2", "gamma", false, "normal", [], "T2"⟩] "" 1
      = some ⟨"1", "beta", false, "normal", [], "T1"⟩ ∧
    getFilteredTasks
      (deleteTaskList
        [⟨"0", "alpha", false, "normal", [], "T0"⟩,
         ⟨"1", "beta", false, "normal", [], "T1"⟩,
         ⟨"2", "gamma", false, "normal", [], "T2"⟩] "0") ""
      = [⟨"1", "beta", false, "normal", [], "T1"⟩,
         ⟨"2", "gamma", false, "normal", [], "T2"⟩] ∧
    currentTaskAt
      (deleteTaskList
        [⟨"0", "alpha", false, "normal", [], "T0"⟩,
         ⟨"1", "beta", false, "normal", [], "T1"⟩,
         ⟨"2", "gamma", false, "normal", [], "T2"⟩] "0") "" 1
      = some ⟨"2", "gamma", false, "normal", [], "T2"⟩ ∧
    (⟨"2", "gamma", false, "normal", [], "T2"⟩ : Task)
      ≠ ⟨"1", "beta", false, "normal", [], "T1"⟩ := by
  exact ⟨rfl, by decide, by decide, by decide⟩

/-- Claim C2, code evaluated at the failing input: a missing file and
invalid JSON do degrade to the empty collection, but a parsed record
missing a required field (`id` here) makes `Task(**record)` raise
`TypeError`, which is not in the caught
`(json.JSONDecodeError, KeyError, ValueError)` tuple and so propagates
out of `load_tasks`. -/
theorem load_missing_required_field_raises :
    loadTasks .missing "T" [] 0 = .ok [] 0 ∧
    loadTasks .invalidJson "T" [] 0 = .ok [] 0 ∧
    loadTasks
      (.records [⟨none, some "only a title", none, none, none, none⟩])
      "T" [] 0 = .raised .typeError :=
  ⟨rfl, rfl, rfl⟩

/-- Claim C3: the empty filter returns the task list unchanged, and a
non-empty filter returns exactly the subsequence of tasks, in original
order, whose title or one of whose tags contains the filter text as a
case-insensitive substring (`SpecMatches`, worded from the claim). -/
theorem filter_empty_identity_and_substring_correct :
    (∀ tasks : List Task, getFilteredTasks tasks "" = tasks) ∧
    (∀ (tasks : List Task) (s : String), s ≠ "" →
      getFilteredTasks tasks s
          = tasks.filter (fun t => decide (SpecMatches s t)) ∧
      (getFilteredTasks tasks s).Sublist tasks) := by
  constructor
  · intro tasks
    simp [getFilteredTasks]
  · intro tasks s hs
    constructor
    · unfold getFilteredTasks
      rw [if_neg hs]
      refine List.filter_congr (fun t _ => ?_)
      rw [Bool.eq_iff_iff]
      simp [pyIn, SpecMatches, List.any_eq_true]
    · unfold getFilteredTasks
      rw [if_neg hs]
      exact List.filter_sublist tasks

/-- Claim C3 witness: the theorem applied at a concrete two-task list
and the filter `"work"`, which matches the second task by its tag. -/
theorem filter_empty_identity_and_substring_correct_witness :
    getFilteredTasks
      [⟨"0", "Buy milk", false, "normal", [], "T"⟩,
       ⟨"1", "Write report", false, "high", ["Work"], "T"⟩] "work"
      = [⟨"0", "Buy milk", false, "normal", [], "T"⟩,
         ⟨"1", "Write report", false, "high", ["Work"], "T"⟩].filter
          (fun t => decide (SpecMatches "work" t)) ∧
    (getFilteredTasks
      [⟨"0", "Buy milk", false, "normal", [], "T"⟩,
       ⟨"1", "Write report", false, "high", ["Work"], "T"⟩]
      "work").Sublist
      [⟨"0", "Buy milk", false, "normal", [], "T"⟩,
       ⟨"1", "Write report", false, "high", ["Work"], "T"⟩] :=
  filter_empty_identity_and_substring_correct.2
    [⟨"0", "Buy milk", false, "normal", [], "T"⟩,
     ⟨"1", "Write report", false, "high", ["Work"], "T"⟩] "work"
    (by decide)

/-- Claim C5 counterexample: a record read from the storage file with
the out-of-range priority `"URGENT"` loads successfully and the stored
task keeps priority `"URGENT"` — `load_tasks` performs no coercion, so
the priority does not collapse to `"normal"` on the load path. -/
theorem load_keeps_invalid_priority_verbatim :
    loadTasks
      (.records [⟨some "0", some "x", some false, some "URGENT",
                  some [], some "T"⟩]) "T" [] 0
      = .ok [⟨"0", "x", false, "URGENT", [], "T"⟩] 1 ∧
    ("URGENT" : String) ≠ "normal" :=
  ⟨rfl, by decide⟩

/-- Claim C5 as amended: on a create request the add-modal coerces a
priority outside {low, normal, high} to `"normal"` (and keeps an
allowed one verbatim), while a record read from the storage file keeps
whatever priority string it carries (the dataclass default `"normal"`
applies only when the field is absent). -/
theorem priority_coerced_on_create_kept_on_load :
    (∀ tRaw pRaw gRaw d, modalResult tRaw pRaw gRaw = some d →
      (pyStrip pRaw ∉ (["low", "normal", "high"] : List String) →
        d.priority = "normal") ∧
      (pyStrip pRaw ∈ (["low", "normal", "high"] : List String) →
        d.priority = pyStrip pRaw)) ∧
    (∀ now r t, mkTask now r = .ok t →
      t.priority = r.priority.getD "normal") := by
  constructor
  · intro tRaw pRaw gRaw d hd
    simp only [modalResult] at hd
    split at hd
    · exact absurd hd (by simp)
    · replace hd := (Option.some.inj hd).symm
      subst hd
      constructor
      · intro hnot
        by_cases hp : pyStrip pRaw = ""
        · simp [hp]
        · simp only [if_neg hp]
          rw [if_neg hnot]
      · intro hmem
        have hp : pyStrip pRaw ≠ "" := by
          intro h
          rw [h] at hmem
          simp at hmem
        simp only [if_neg hp]
        rw [if_pos hmem]
  · intro now r t h
    unfold mkTask at h
    split at h
    · next i ti _ _ =>
      replace h := Except.ok.inj h
      subst h
      rfl
    · exact absurd h (by simp)

/-- Claim C5 witness for the amended statement: the create path coerces
`"URGENT"` to `"normal"`, and a loaded record's `"URGENT"` priority is
kept. -/
theorem priority_coerced_on_create_kept_on_load_witness :
    (⟨"hi", "normal", []⟩ : TaskData).priority = "normal" ∧
    (⟨"0", "x", false, "URGENT", [], "T"⟩ : Task).priority
      = (some "URGENT").getD "normal" :=
  ⟨(priority_coerced_on_create_kept_on_load.1 "hi" "URGENT" ""
      ⟨"hi", "normal", []⟩ (by decide)).1 (by decide),
   priority_coerced_on_create_kept_on_load.2 "T"
     ⟨some "0", some "x", some false, some "URGENT", some [], some "T"⟩
     ⟨"0", "x", false, "URGENT", [], "T"⟩ rfl⟩

/-- Claim C7: toggling the completed flag of the task with a given id
twice restores the original list — `ToggleComplete` is an involution. -/
theorem toggle_twice_restores_completed (tasks : List Task) (i : String) :
    toggleCompleteList (toggleCompleteList tasks i) i = tasks := by
  induction tasks with
  | nil => rfl
  | cons t ts ih =>
    simp only [toggleCompleteList, List.map_cons] at ih ⊢
    exact congrArg₂ List.cons (toggleFlip_involutive i t) ih

/-- Claim C8: `Delete(id)` keeps exactly the tasks whose id differs, as
a subsequence of the original list (relative order preserved), every
survivor misses the deleted id, every other task survives, and when no
task carries the id the list is unchanged. -/
theorem delete_removes_id_preserving_order (tasks : List Task)
    (i : String) :
    (deleteTaskList tasks i).Sublist tasks ∧
    (∀ t ∈ deleteTaskList tasks i, t.id ≠ i) ∧
    (∀ t ∈ tasks, t.id ≠ i → t ∈ deleteTaskList tasks i) ∧
    ((∀ t ∈ tasks, t.id ≠ i) → deleteTaskList tasks i = tasks) := by
  refine ⟨List.filter_sublist tasks, ?_, ?_, ?_⟩
  · intro t ht
    have := (List.mem_filter.1 ht).2
    simpa using this
  · intro t ht hne
    exact List.mem_filter.2 ⟨ht, by simpa using hne⟩
  · intro hall
    apply List.filter_eq_self.2
    intro t ht
    simpa using hall t ht

/-- Claim C8 witness: deleting an id that no task carries is a no-op. -/
theorem delete_removes_id_preserving_order_witness :
    deleteTaskList [⟨"7", "keep", false, "normal", [], "T"⟩] "missing"
      = [⟨"7", "keep", false, "normal", [], "T"⟩] :=
  (delete_removes_id_preserving_order
    [⟨"7", "keep", false, "normal", [], "T"⟩] "missing").2.2.2
    (by decide)

/-- Claim C4: across any event trace in one process lifetime (any
starting state, so in particular the state a load produced, with
deletes and toggles interleaved), the counter values consumed by create
events are strictly increasing and the assigned id strings — their
decimal renderings — are pairwise distinct; and a successful load from
the startup state `([], 0)` sets the counter to one more than the
maximum numeric id of the loaded tasks, or leaves it `0` when the
loaded collection is empty. -/
theorem create_ids_unique_and_counter_from_load :
    (∀ (s : AppState) (tr : List (Event × Bool)),
      (createdCounters s tr).Pairwise (· < ·) ∧
      createdIds s tr = (createdCounters s tr).map pyStrInt ∧
      (createdIds s tr).Pairwise (· ≠ ·)) ∧
    (∀ (file : FileState) (now : String) (ts : List Task) (k : Int),
      loadTasks file now [] 0 = .ok ts k →
      (ts = [] → k = 0) ∧
      (ts ≠ [] → ∃ m, (∃ t ∈ ts, pyInt t.id = some m) ∧
        (∀ t ∈ ts, ∀ x, pyInt t.id = some x → x ≤ m) ∧ k = m + 1)) := by
  constructor
  · intro s tr
    refine ⟨createdCounters_pairwise tr s, createdIds_eq_map tr s, ?_⟩
    rw [createdIds_eq_map tr s]
    exact (createdCounters_pairwise tr s).map pyStrInt
      (fun a b hab he => absurd (pyStrInt_inj he) (by omega))
  · intro file now ts k h
    cases file with
    | missing =>
      unfold loadTasks at h
      obtain ⟨h1, h2⟩ := LoadResult.ok.inj h
      subst h1
      subst h2
      exact ⟨fun _ => rfl, fun hne => absurd rfl hne⟩
    | invalidJson =>
      unfold loadTasks at h
      obtain ⟨h1, h2⟩ := LoadResult.ok.inj h
      subst h1
      subst h2
      exact ⟨fun _ => rfl, fun hne => absurd rfl hne⟩
    | records rs =>
      simp only [loadTasks] at h
      cases hb : buildAll now rs with
      | error e =>
        rw [hb] at h
        exact LoadResult.noConfusion h
      | ok built =>
        rw [hb] at h
        cases built with
        | nil =>
          replace h : LoadResult.ok [] 0 = LoadResult.ok ts k := h
          obtain ⟨h1, h2⟩ := LoadResult.ok.inj h
          subst h1
          subst h2
          exact ⟨fun _ => rfl, fun hne => absurd rfl hne⟩
        | cons u us =>
          replace h : (match maxIds (u :: us) with
            | none => LoadResult.ok [] 0
            | some m => LoadResult.ok (u :: us) (m + 1))
              = LoadResult.ok ts k := h
          cases hm : maxIds (u :: us) with
          | none =>
            rw [hm] at h
            replace h : LoadResult.ok [] 0 = LoadResult.ok ts k := h
            obtain ⟨h1, h2⟩ := LoadResult.ok.inj h
            subst h1
            subst h2
            exact ⟨fun _ => rfl, fun hne => absurd rfl hne⟩
          | some m =>
            rw [hm] at h
            replace h : LoadResult.ok (u :: us) (m + 1)
              = LoadResult.ok ts k := h
            obtain ⟨h1, h2⟩ := LoadResult.ok.inj h
            subst h1
            subst h2
            obtain ⟨hex, hub⟩ := maxIds_some (u :: us) m hm
            exact ⟨fun hc => absurd hc (by simp),
                   fun _ => ⟨m, hex, hub, rfl⟩⟩

/-- Claim C4 witness: loading a single task with id `"3"` from the
startup state yields counter 4 = 3 + 1, exhibited through the load part
of the theorem. -/
theorem create_ids_unique_and_counter_from_load_witness :
    ∃ m, (∃ t ∈ [(⟨"3", "x", false, "normal", [], "T"⟩ : Task)],
            pyInt t.id = some m) ∧
      (∀ t ∈ [(⟨"3", "x", false, "normal", [], "T"⟩ : Task)],
          ∀ x, pyInt t.id = some x → x ≤ m) ∧ (4 : Int) = m + 1 :=
  (create_ids_unique_and_counter_from_load.2
    (.records [⟨some "3", some "x", none, none, none, none⟩]) "T"
    [⟨"3", "x", false, "normal", [], "T"⟩] 4 rfl).2 (by decide)

/-- Claim C6: loading the file written by `save_tasks` reproduces the
same tasks — every field identical, same order — for any collection
whose ids parse as integers (which all ids the program assigns do,
being decimal renderings of the counter). -/
theorem save_load_round_trip (c : List Task) (now : String)
    (t0 : List Task) (c0 : Int)
    (h : ∀ t ∈ c, (pyInt t.id).isSome = true) :
    (loadTasks (saveTasksFile c) now t0 c0).tasksOf = some c := by
  simp only [saveTasksFile, loadTasks]
  rw [buildAll_saveRecords now c]
  cases c with
  | nil => rfl
  | cons t ts =>
    obtain ⟨m, hm⟩ := maxIds_isSome (t :: ts) (by simp) h
    show (match maxIds (t :: ts) with
      | none => LoadResult.ok [] c0
      | some m => LoadResult.ok (t :: ts) (m + 1)).tasksOf
        = some (t :: ts)
    rw [hm]
    rfl

/-- Claim C6 witness: the round trip at a concrete one-task
collection. -/
theorem save_load_round_trip_witness :
    (loadTasks
      (saveTasksFile [⟨"0", "Buy milk", false, "normal", [], "T"⟩]) "N"
      [] 0).tasksOf
      = some [⟨"0", "Buy milk", false, "normal", [], "T"⟩] :=
  save_load_round_trip [⟨"0", "Buy milk", false, "normal", [], "T"⟩]
    "N" [] 0 (by decide)

/-- Claim C9: the persistence write outcome never touches the in-memory
fields — after any mutating event the task list and counter are the
same whether the save succeeded or failed — and the mutation is not
rolled back: after a failing write the in-memory list already carries
the appended / filtered / toggled result. -/
theorem write_failure_swallowed_no_rollback :
    (∀ (s : AppState) (e : Event) (w : Bool),
      (stepEvent s e w).tasks = (stepEvent s e true).tasks ∧
      (stepEvent s e w).counter = (stepEvent s e true).counter) ∧
    (∀ (s : AppState) (t p g now : String) (d : TaskData),
      modalResult t p g = some d →
      (stepEvent s (.create t p g now) false).tasks
        = s.tasks ++ [newTaskOf s.counter d now]) ∧
    (∀ (s : AppState) (i : String),
      (stepEvent s (.deleteTask i) false).tasks
        = deleteTaskList s.tasks i) ∧
    (∀ (s : AppState) (i : String),
      (stepEvent s (.toggleTask i) false).tasks
        = toggleCompleteList s.tasks i) := by
  refine ⟨?_, ?_, fun s i => rfl, fun s i => rfl⟩
  · intro s e w
    cases e with
    | create t p g now =>
      rcases hm : modalResult t p g with _ | d <;> simp [stepEvent, hm]
    | deleteTask i => exact ⟨rfl, rfl⟩
    | toggleTask i => exact ⟨rfl, rfl⟩
  · intro s t p g now d hd
    simp [stepEvent, hd]

/-- Claim C9 witness: a create whose save fails still appends the new
task in memory. -/
theorem write_failure_swallowed_no_rollback_witness :
    (stepEvent ⟨[], 0, .missing⟩ (.create "milk" "" "" "N") false).tasks
      = [] ++ [newTaskOf 0 ⟨"milk", "normal", []⟩ "N"] :=
  write_failure_swallowed_no_rollback.2.1 ⟨[], 0, .missing⟩
    "milk" "" "" "N" ⟨"milk", "normal", []⟩ (by decide)

/-- Claim C10: when every record of the file builds a task but some
task's id string does not parse as an integer, the `ValueError` raised
inside `max(int(task.id) ...)` is caught and the whole collection
degrades to empty (the counter keeps its prior value). -/
theorem unparseable_id_discards_whole_file (rs : List RawRecord)
    (now : String) (t0 : List Task) (c0 : Int) (ts : List Task)
    (hb : buildAll now rs = .ok ts) (t : Task) (ht : t ∈ ts)
    (hbad : pyInt t.id = none) :
    loadTasks (.records rs) now t0 c0 = .ok [] c0 := by
  simp only [loadTasks]
  rw [hb]
  cases ts with
  | nil => exact absurd ht (List.not_mem_nil t)
  | cons u us =>
    show (match maxIds (u :: us) with
      | none => LoadResult.ok [] c0
      | some m => LoadResult.ok (u :: us) (m + 1))
        = LoadResult.ok [] c0
    rw [maxIds_none_of_mem (u :: us) t ht hbad]

/-- Claim C10 witness: a two-record file whose first id is `"abc"` —
each record individually well-typed — loads as the empty collection. -/
theorem unparseable_id_discards_whole_file_witness :
    loadTasks
      (.records [⟨some "abc", some "x", none, none, none, none⟩,
                 ⟨some "1", some "y", none, none, none, none⟩])
      "T" [] 0 = .ok [] 0 :=
  unparseable_id_discards_whole_file
    [⟨some "abc", some "x", none, none, none, none⟩,
     ⟨some "1", some "y", none, none, none, none⟩] "T" [] 0
    [⟨"abc", "x", false, "normal", [], "T"⟩,
     ⟨"1", "y", false, "normal", [], "T"⟩] rfl
    ⟨"abc", "x", false, "normal", [], "T"⟩ (by decide) (by decide)

end Tasky
